import Mathlib

/-!
A shallow embedding of the IBF brainfuck interpreter (src/ibf.c) and proofs
about its chunk-feeding, loop-buffering and loop-execution behaviour.

Modelling conventions:
* `uint8_t` cells are `Nat` values kept `< 256` by writing `% 256` wherever
  the C code relies on unsigned-char wraparound.
* The C pair (`loop_buffer` array, `loop_size` counter) is modelled as the
  list of the first `loop_size` characters of the array; clearing the size
  empties the list.
* The stdin/stdout collaborators are modelled inside the context: an input
  byte stream `input_handler : Nat -> Nat` with a consumption counter, and
  an accumulated `output` list.
* Writes to stderr by the `print_error_*` helpers are modelled as a list of
  reported `interpreter_error` events carried in the context.
* `brainfuck_loop_execute`'s while-loop need not terminate (brainfuck loops
  can diverge), so it takes an explicit fuel and returns `none` when the
  fuel is exhausted; every function reaching it is `Option`-valued.
* Reads past the end of modelled buffers (past the string NUL, past
  `loop_size`, or a jump-stack underflow) are undefined behaviour in the C
  source; the model returns `none` there.
-/

/-- The error taxonomy reported on stderr by the C `print_error_*` helpers. -/
inductive interpreter_error where
  | UnmatchedLoopEnd
  | UnmatchedLoopStart
  | LoopDepthExceeded
  | LoopBufferCapacityExceeded
deriving DecidableEq

/-- C constant `BRAINFUCK_MEMORY_BUFFER_SIZE`. -/
def BRAINFUCK_MEMORY_BUFFER_SIZE : Nat := 30000

/-- C constant `BRAINFUCK_LOOP_BUFFER_SIZE`. -/
def BRAINFUCK_LOOP_BUFFER_SIZE : Nat := 100000

/-- C constant `BRAINFUCK_MAX_LOOP_DEPTH`. -/
def BRAINFUCK_MAX_LOOP_DEPTH : Nat := 65536

/-- C `struct brainfuck_state` (ibf.c lines 38-44).  `memory_buffer` maps a
cell index to its value (all values kept below 256); `loop_buffer` models
the first `loop_size` characters of the C array, so the C field `loop_size`
is `loop_buffer.length`. -/
structure brainfuck_state where
  memory_buffer : Nat → Nat
  memory_pointer : Nat
  loop_buffer : List Char
  unmatched_depth : Nat

/-- C `struct brainfuck_context` (ibf.c lines 49-53), with the two I/O
collaborators modelled as an input stream plus consumption counter and an
accumulated output list, and stderr error reports accumulated in `errors`. -/
structure brainfuck_context where
  state : brainfuck_state
  input_handler : Nat → Nat
  input_pointer : Nat
  output : List Nat
  errors : List interpreter_error

/-- Functional update of one memory cell. -/
def mem_update (m : Nat → Nat) (i v : Nat) : Nat → Nat :=
  fun j => if j = i then v else m j

/-- The byte at the data pointer, `memory_buffer[memory_pointer]`. -/
def brainfuck_current_cell (ctx : brainfuck_context) : Nat :=
  ctx.state.memory_buffer ctx.state.memory_pointer

/-- C `brainfuck_state_new` (ibf.c lines 59-67): zeroed tape, cursor 0,
empty loop buffer, depth 0. -/
def brainfuck_state_new : brainfuck_state :=
  { memory_buffer := fun _ => 0
    memory_pointer := 0
    loop_buffer := []
    unmatched_depth := 0 }

/-- C `brainfuck_context_new` (ibf.c lines 88-96). -/
def brainfuck_context_new (inp : Nat → Nat) : brainfuck_context :=
  { state := brainfuck_state_new
    input_handler := inp
    input_pointer := 0
    output := []
    errors := [] }

/-- C `print_error_unmatched_loop_end` (ibf.c line 110): a stderr report. -/
def print_error_unmatched_loop_end (ctx : brainfuck_context) : brainfuck_context :=
  { ctx with errors := ctx.errors ++ [interpreter_error.UnmatchedLoopEnd] }

/-- C `print_error_unmatched_loop_start` (ibf.c line 114). -/
def print_error_unmatched_loop_start (ctx : brainfuck_context) : brainfuck_context :=
  { ctx with errors := ctx.errors ++ [interpreter_error.UnmatchedLoopStart] }

/-- C `print_error_max_loop_depth` (ibf.c line 118). -/
def print_error_max_loop_depth (ctx : brainfuck_context) : brainfuck_context :=
  { ctx with errors := ctx.errors ++ [interpreter_error.LoopDepthExceeded] }

/-- C `print_error_max_loop_size` (ibf.c line 126). -/
def print_error_max_loop_size (ctx : brainfuck_context) : brainfuck_context :=
  { ctx with errors := ctx.errors ++ [interpreter_error.LoopBufferCapacityExceeded] }

/-- C `brainfuck_execute_plus` (ibf.c lines 138-143): `uint8_t` increment,
wrapping modulo 256. -/
def brainfuck_execute_plus (ctx : brainfuck_context) : brainfuck_context :=
  { ctx with state := { ctx.state with
      memory_buffer := mem_update ctx.state.memory_buffer ctx.state.memory_pointer
        ((brainfuck_current_cell ctx + 1) % 256) } }

/-- C `brainfuck_execute_minus` (ibf.c lines 149-154): `uint8_t` decrement,
wrapping modulo 256 (subtracting 1 equals adding 255 mod 256). -/
def brainfuck_execute_minus (ctx : brainfuck_context) : brainfuck_context :=
  { ctx with state := { ctx.state with
      memory_buffer := mem_update ctx.state.memory_buffer ctx.state.memory_pointer
        ((brainfuck_current_cell ctx + 255) % 256) } }

/-- C `brainfuck_execute_previous` (ibf.c lines 160-169): move the cursor
left with circular wraparound at 0. -/
def brainfuck_execute_previous (ctx : brainfuck_context) : brainfuck_context :=
  { ctx with state := { ctx.state with
      memory_pointer :=
        if ctx.state.memory_pointer = 0 then BRAINFUCK_MEMORY_BUFFER_SIZE - 1
        else ctx.state.memory_pointer - 1 } }

/-- C `brainfuck_execute_next` (ibf.c lines 175-184): move the cursor right
with circular wraparound at the last cell. -/
def brainfuck_execute_next (ctx : brainfuck_context) : brainfuck_context :=
  { ctx with state := { ctx.state with
      memory_pointer :=
        if ctx.state.memory_pointer = BRAINFUCK_MEMORY_BUFFER_SIZE - 1 then 0
        else ctx.state.memory_pointer + 1 } }

/-- C `brainfuck_execute_input` (ibf.c lines 190-196): store the next input
byte into the current cell. -/
def brainfuck_execute_input (ctx : brainfuck_context) : brainfuck_context :=
  { ctx with
    state := { ctx.state with
      memory_buffer := mem_update ctx.state.memory_buffer ctx.state.memory_pointer
        (ctx.input_handler ctx.input_pointer % 256) }
    input_pointer := ctx.input_pointer + 1 }

/-- C `brainfuck_execute_output` (ibf.c lines 202-208): emit the current
cell to the output collaborator. -/
def brainfuck_execute_output (ctx : brainfuck_context) : brainfuck_context :=
  { ctx with output := ctx.output ++ [brainfuck_current_cell ctx] }

/-- C `brainfuck_loop_enque` (ibf.c lines 210-221): append a character to
the loop buffer; at full capacity report the error and return false. -/
def brainfuck_loop_enque (ctx : brainfuck_context) (c : Char) :
    Bool × brainfuck_context :=
  if ctx.state.loop_buffer.length = BRAINFUCK_LOOP_BUFFER_SIZE then
    (false, print_error_max_loop_size ctx)
  else
    (true, { ctx with state := { ctx.state with
      loop_buffer := ctx.state.loop_buffer ++ [c] } })

/-- C `brainfuck_loop_increase_unmatched` (ibf.c lines 223-233). -/
def brainfuck_loop_increase_unmatched (ctx : brainfuck_context) :
    Bool × brainfuck_context :=
  if ctx.state.unmatched_depth = BRAINFUCK_MAX_LOOP_DEPTH then
    (false, print_error_max_loop_depth ctx)
  else
    (true, { ctx with state := { ctx.state with
      unmatched_depth := ctx.state.unmatched_depth + 1 } })

/-- The inner instruction switch of `brainfuck_loop_execute`
(ibf.c lines 277-298), in the C case order. -/
def brainfuck_loop_dispatch (ctx : brainfuck_context) (c : Char) :
    brainfuck_context :=
  if c = '+' then brainfuck_execute_plus ctx
  else if c = '-' then brainfuck_execute_minus ctx
  else if c = '<' then brainfuck_execute_previous ctx
  else if c = '>' then brainfuck_execute_next ctx
  else if c = ',' then brainfuck_execute_input ctx
  else if c = '.' then brainfuck_execute_output ctx
  else ctx

/-- The depth-counted forward scan of `brainfuck_loop_execute`
(ibf.c lines 251-262) that skips a not-taken nested loop: starting just
after a `[` with `depth` open brackets, returns how many characters are
consumed until the depth reaches 0.  Running off the end of the buffered
characters reads stale memory in C (undefined behaviour): `none`. -/
def brainfuck_loop_skip : Nat → List Char → Option Nat
  | _, [] => none
  | depth, c :: rest =>
    let d1 := if c = '[' then depth + 1
              else if c = ']' then depth - 1 else depth
    if d1 = 0 then some 1 else (brainfuck_loop_skip d1 rest).map (· + 1)

/-- The while-loop of C `brainfuck_loop_execute` (ibf.c lines 246-301):
`stack` is the explicit stack of `[` positions, `ep` the execute pointer
(the character read, `loop_buffer[ep]`, is guarded by `ep < loop_size`, so
the `getD` default is never consulted).  The loop may run forever, so it
consumes one unit of fuel per iteration and returns `none` when the fuel
runs out.  A jump-stack underflow (a pop or a peek on an empty stack) is
undefined behaviour in C: `none`. -/
def brainfuck_loop_execute_go :
    Nat → brainfuck_context → List Nat → Nat → Option brainfuck_context
  | 0, _, _, _ => none
  | fuel + 1, ctx, stack, ep =>
    if ep < ctx.state.loop_buffer.length then
      if ctx.state.loop_buffer.getD ep '#' = '[' then
        if brainfuck_current_cell ctx = 0 then
          (brainfuck_loop_skip 1 (ctx.state.loop_buffer.drop (ep + 1))).bind
            (fun k => brainfuck_loop_execute_go fuel ctx stack (ep + 1 + k))
        else brainfuck_loop_execute_go fuel ctx (ep :: stack) (ep + 1)
      else if ctx.state.loop_buffer.getD ep '#' = ']' then
        if brainfuck_current_cell ctx ≠ 0 then
          stack.head?.bind
            (fun top => brainfuck_loop_execute_go fuel ctx stack (top + 1))
        else
          if stack = [] then none
          else brainfuck_loop_execute_go fuel ctx stack.tail (ep + 1)
      else
        brainfuck_loop_execute_go fuel
          (brainfuck_loop_dispatch ctx (ctx.state.loop_buffer.getD ep '#'))
          stack (ep + 1)
    else some { ctx with state := { ctx.state with loop_buffer := [] } }

/-- C `brainfuck_loop_execute` (ibf.c lines 235-304): if the buffer is
empty, return; if the cell under the cursor is zero, clear the buffer and
return immediately (before the jump stack is even set up); otherwise run
the buffered body, which ends by clearing the buffer. -/
def brainfuck_loop_execute (fuel : Nat) (ctx : brainfuck_context) :
    Option brainfuck_context :=
  if ctx.state.loop_buffer.length = 0 then some ctx
  else if brainfuck_current_cell ctx = 0 then
    some { ctx with state := { ctx.state with loop_buffer := [] } }
  else brainfuck_loop_execute_go fuel ctx [] 0

/-- The six-way fallthrough group of the buffering switch in
`brainfuck_main` (ibf.c lines 353-358). -/
def brainfuck_is_plain_token (c : Char) : Bool :=
  c = '+' || c = '-' || c = '<' || c = '>' || c = ',' || c = '.'

/-- Any of the eight instruction characters. -/
def brainfuck_is_instruction (c : Char) : Bool :=
  brainfuck_is_plain_token c || c = '[' || c = ']'

/-- One iteration of the `for` loop body of C `brainfuck_main`
(ibf.c lines 316-381): process a single character.  The `Bool` result is
false when the chunk is aborted (the C `return false` paths).  Note the
exact C behaviour: in the direct branch the result of `brainfuck_loop_enque`
at `[` (line 342) is ignored, and in the buffering branch the results of
the enqueues at lines 359 and 365 are ignored; only the enqueue of `]`
(line 369) is checked. -/
def brainfuck_step (fuel : Nat) (ctx : brainfuck_context) (c : Char) :
    Option (Bool × brainfuck_context) :=
  if ctx.state.unmatched_depth = 0 then
    if c = '+' then some (true, brainfuck_execute_plus ctx)
    else if c = '-' then some (true, brainfuck_execute_minus ctx)
    else if c = '<' then some (true, brainfuck_execute_previous ctx)
    else if c = '>' then some (true, brainfuck_execute_next ctx)
    else if c = ',' then some (true, brainfuck_execute_input ctx)
    else if c = '.' then some (true, brainfuck_execute_output ctx)
    else if c = '[' then
      match brainfuck_loop_increase_unmatched ctx with
      | (false, ctx1) => some (false, ctx1)
      | (true, ctx1) => some (true, (brainfuck_loop_enque ctx1 c).2)
    else if c = ']' then some (false, print_error_unmatched_loop_end ctx)
    else some (true, ctx)
  else
    if brainfuck_is_plain_token c then some (true, (brainfuck_loop_enque ctx c).2)
    else if c = '[' then
      match brainfuck_loop_increase_unmatched ctx with
      | (false, ctx1) => some (false, ctx1)
      | (true, ctx1) => some (true, (brainfuck_loop_enque ctx1 c).2)
    else if c = ']' then
      let ctx1 := { ctx with state := { ctx.state with
        unmatched_depth := ctx.state.unmatched_depth - 1 } }
      match brainfuck_loop_enque ctx1 c with
      | (false, ctx2) => some (false, ctx2)
      | (true, ctx2) =>
        if ctx2.state.unmatched_depth = 0 then
          match brainfuck_loop_execute fuel ctx2 with
          | none => none
          | some ctx3 => some (true, ctx3)
        else some (true, ctx2)
    else some (true, ctx)

/-- C `brainfuck_main` (ibf.c lines 312-383) on one chunk.  The C loop
condition is `src[i] != '0'`: it stops at the literal digit zero, not at
the string terminator (spec section 9 flags this as a defect); reading past
the chunk's NUL terminator is undefined behaviour in C and is modelled as
the end of the character list, returning true as a completed chunk does. -/
def brainfuck_main (fuel : Nat) :
    brainfuck_context → List Char → Option (Bool × brainfuck_context)
  | ctx, [] => some (true, ctx)
  | ctx, c :: rest =>
    if c = '0' then some (true, ctx)
    else
      match brainfuck_step fuel ctx c with
      | none => none
      | some (false, ctx1) => some (false, ctx1)
      | some (true, ctx1) => brainfuck_main fuel ctx1 rest

/-- The feeding loop of C `run_file` (ibf.c lines 591-599): feed the chunks
in order through `brainfuck_main`, stopping at the first failed chunk. -/
def feed_chunks (fuel : Nat) :
    brainfuck_context → List (List Char) → Option (Bool × brainfuck_context)
  | ctx, [] => some (true, ctx)
  | ctx, chunk :: rest =>
    match brainfuck_main fuel ctx chunk with
    | none => none
    | some (false, ctx1) => some (false, ctx1)
    | some (true, ctx1) => feed_chunks fuel ctx1 rest

/-- The end-of-stream check of C `run_file` (ibf.c lines 601-605): after
the last chunk, a nonempty loop buffer (`loop_size > 0`) is reported as an
unmatched `[` and the run fails. -/
def end_of_stream (ctx : brainfuck_context) : Bool × brainfuck_context :=
  if ctx.state.loop_buffer.length > 0 then
    (false, print_error_unmatched_loop_start ctx)
  else (true, ctx)

/-- The bracket-balance prescan of C `run_command` (ibf.c lines 616-628):
the running net count of `[` minus `]` over the whole command.  The C
counter is an `int32_t`; its overflow (commands of at least 2^31 brackets)
is undefined behaviour in C and is not modelled — theorems about
`run_command` therefore carry a `command.length < 2^31` hypothesis. -/
def run_command_prescan : List Char → Int → Int
  | [], n => n
  | c :: rest, n =>
    run_command_prescan rest
      (if c = '[' then n + 1 else if c = ']' then n - 1 else n)

/-- C `run_command` (ibf.c lines 615-644): scan the whole command for
bracket balance first; on a net-negative count report an unmatched `]`, on
a net-positive count an unmatched `[`, in both cases returning failure
before any interpreter context exists (the `Option brainfuck_context`
component is `none`).  Only on a balanced command is a fresh context built
and the command fed to `brainfuck_main`. -/
def run_command (fuel : Nat) (inp : Nat → Nat) (command : List Char) :
    Option (Bool × List interpreter_error × Option brainfuck_context) :=
  let unmatched_loop := run_command_prescan command 0
  if unmatched_loop < 0 then
    some (false, [interpreter_error.UnmatchedLoopEnd], none)
  else if unmatched_loop > 0 then
    some (false, [interpreter_error.UnmatchedLoopStart], none)
  else
    match brainfuck_main fuel (brainfuck_context_new inp) command with
    | none => none
    | some (b, ctx) => some (b, ctx.errors, some ctx)

/-- A fresh context over an all-zero input stream, as built by `run_file`
and `run_command` at session start. -/
def init0 : brainfuck_context := brainfuck_context_new (fun _ => 0)

/-- The state predicate tying the depth tracker to the loop buffer: outside
a loop the buffer is empty, inside it is not.  `run_file`'s end-of-stream
check tests the buffer size where the spec speaks of the depth; this
predicate, preserved by every successful feed, links the two. -/
def depth_buffer_agree (ctx : brainfuck_context) : Prop :=
  ctx.state.unmatched_depth = 0 ↔ ctx.state.loop_buffer = []

/-- A context whose current cell holds 255, for exercising wraparound. -/
def ctx255 : brainfuck_context :=
  { init0 with state := { init0.state with memory_buffer := fun _ => 255 } }

/-- A buffering-state context whose loop buffer is at full capacity. -/
def ctx_full_buffer : brainfuck_context :=
  { init0 with state := { init0.state with
      loop_buffer := List.replicate BRAINFUCK_LOOP_BUFFER_SIZE '+'
      unmatched_depth := 1 } }

/-- A buffering-state context holding one open bracket. -/
def ctx_buffering1 : brainfuck_context :=
  { init0 with state := { init0.state with
      loop_buffer := ['[']
      unmatched_depth := 1 } }

theorem brainfuck_loop_dispatch_depth (ctx : brainfuck_context) (c : Char) :
    (brainfuck_loop_dispatch ctx c).state.unmatched_depth =
      ctx.state.unmatched_depth := by
  unfold brainfuck_loop_dispatch
  split_ifs <;> rfl

theorem brainfuck_loop_dispatch_buffer (ctx : brainfuck_context) (c : Char) :
    (brainfuck_loop_dispatch ctx c).state.loop_buffer =
      ctx.state.loop_buffer := by
  unfold brainfuck_loop_dispatch
  split_ifs <;> rfl

theorem brainfuck_loop_execute_go_some (fuel : Nat) :
    ∀ (ctx : brainfuck_context) (stack : List Nat) (ep : Nat)
      (ctx' : brainfuck_context),
      brainfuck_loop_execute_go fuel ctx stack ep = some ctx' →
      ctx'.state.loop_buffer = [] ∧
        ctx'.state.unmatched_depth = ctx.state.unmatched_depth := by
  induction fuel with
  | zero =>
    intro ctx stack ep ctx' h
    simp [brainfuck_loop_execute_go] at h
  | succ n ih =>
    intro ctx stack ep ctx' h
    unfold brainfuck_loop_execute_go at h
    split at h
    · split at h
      · split at h
        · cases hsk : brainfuck_loop_skip 1 (ctx.state.loop_buffer.drop (ep + 1)) with
          | none => rw [hsk] at h; exact absurd h (by simp)
          | some k => rw [hsk] at h; exact ih _ _ _ _ h
        · exact ih _ _ _ _ h
      · split at h
        · split at h
          · cases hhd : stack.head? with
            | none => rw [hhd] at h; exact absurd h (by simp)
            | some top => rw [hhd] at h; exact ih _ _ _ _ h
          · split at h
            · exact absurd h (by simp)
            · exact ih _ _ _ _ h
        · have := ih _ _ _ _ h
          rw [brainfuck_loop_dispatch_depth] at this
          exact this
    · cases h
      exact ⟨rfl, rfl⟩

theorem brainfuck_loop_execute_some (fuel : Nat) (ctx ctx' : brainfuck_context)
    (h : brainfuck_loop_execute fuel ctx = some ctx') :
    ctx'.state.loop_buffer = [] ∧
      ctx'.state.unmatched_depth = ctx.state.unmatched_depth := by
  unfold brainfuck_loop_execute at h
  split at h
  · cases h
    exact ⟨List.length_eq_zero.mp (by assumption), rfl⟩
  · split at h
    · cases h
      exact ⟨rfl, rfl⟩
    · exact brainfuck_loop_execute_go_some fuel ctx [] 0 ctx' h

theorem brainfuck_step_inv (fuel : Nat) (ctx : brainfuck_context) (c : Char)
    (ctx' : brainfuck_context)
    (h : brainfuck_step fuel ctx c = some (true, ctx'))
    (hinv : depth_buffer_agree ctx) : depth_buffer_agree ctx' := by
  by_cases hd : ctx.state.unmatched_depth = 0
  · have hbuf : ctx.state.loop_buffer = [] := hinv.mp hd
    by_cases h1 : c = '+'
    · simp [brainfuck_step, hd, h1] at h
      simp [← h, depth_buffer_agree, brainfuck_execute_plus, hd, hbuf]
    · by_cases h2 : c = '-'
      · simp [brainfuck_step, hd, h1, h2] at h
        simp [← h, depth_buffer_agree, brainfuck_execute_minus, hd, hbuf]
      · by_cases h3 : c = '<'
        · simp [brainfuck_step, hd, h1, h2, h3] at h
          simp [← h, depth_buffer_agree, brainfuck_execute_previous, hd, hbuf]
        · by_cases h4 : c = '>'
          · simp [brainfuck_step, hd, h1, h2, h3, h4] at h
            simp [← h, depth_buffer_agree, brainfuck_execute_next, hd, hbuf]
          · by_cases h5 : c = ','
            · simp [brainfuck_step, hd, h1, h2, h3, h4, h5] at h
              simp [← h, depth_buffer_agree, brainfuck_execute_input, hd, hbuf]
            · by_cases h6 : c = '.'
              · simp [brainfuck_step, hd, h1, h2, h3, h4, h5, h6] at h
                simp [← h, depth_buffer_agree, brainfuck_execute_output, hd, hbuf]
              · by_cases h7 : c = '['
                · simp [brainfuck_step, hd, h1, h2, h3, h4, h5, h6, h7,
                    brainfuck_loop_increase_unmatched, BRAINFUCK_MAX_LOOP_DEPTH,
                    brainfuck_loop_enque, hbuf, BRAINFUCK_LOOP_BUFFER_SIZE] at h
                  simp [← h, depth_buffer_agree]
                · by_cases h8 : c = ']'
                  · simp [brainfuck_step, hd, h1, h2, h3, h4, h5, h6, h7, h8] at h
                  · simp [brainfuck_step, hd, h1, h2, h3, h4, h5, h6, h7, h8] at h
                    simpa [← h] using hinv
  · have hbne : ctx.state.loop_buffer ≠ [] := fun he => hd (hinv.mpr he)
    by_cases hp : brainfuck_is_plain_token c = true
    · by_cases hcap : ctx.state.loop_buffer.length = BRAINFUCK_LOOP_BUFFER_SIZE
      · simp [brainfuck_step, hd, hp, brainfuck_loop_enque, hcap,
          print_error_max_loop_size] at h
        simpa [← h, depth_buffer_agree] using hinv
      · simp [brainfuck_step, hd, hp, brainfuck_loop_enque, hcap] at h
        simp [← h, depth_buffer_agree, hd]
    · by_cases h7 : c = '['
      · subst h7
        by_cases hmax : ctx.state.unmatched_depth = BRAINFUCK_MAX_LOOP_DEPTH
        · simp [brainfuck_step, hd, brainfuck_is_plain_token,
            brainfuck_loop_increase_unmatched, hmax,
            BRAINFUCK_MAX_LOOP_DEPTH] at h
        · by_cases hcap : ctx.state.loop_buffer.length = BRAINFUCK_LOOP_BUFFER_SIZE
          · simp [brainfuck_step, hd, brainfuck_is_plain_token,
              brainfuck_loop_increase_unmatched, hmax, brainfuck_loop_enque,
              hcap, print_error_max_loop_depth, print_error_max_loop_size] at h
            simp [← h, depth_buffer_agree, hbne]
          · simp [brainfuck_step, hd, brainfuck_is_plain_token,
              brainfuck_loop_increase_unmatched, hmax, brainfuck_loop_enque,
              hcap] at h
            simp [← h, depth_buffer_agree]
      · by_cases h8 : c = ']'
        · subst h8
          by_cases hcap : ctx.state.loop_buffer.length = BRAINFUCK_LOOP_BUFFER_SIZE
          · simp [brainfuck_step, hd, brainfuck_is_plain_token,
              brainfuck_loop_enque, hcap] at h
          · by_cases hz : ctx.state.unmatched_depth - 1 = 0
            · simp [brainfuck_step, hd, brainfuck_is_plain_token,
                brainfuck_loop_enque, hcap, hz] at h
              split at h
              · exact absurd h (by simp)
              · rename_i ctx3 hle
                have hparts := brainfuck_loop_execute_some fuel _ ctx3 hle
                simp at h
                subst h
                simp [depth_buffer_agree, hparts.1, hparts.2, hz]
            · simp [brainfuck_step, hd, brainfuck_is_plain_token,
                brainfuck_loop_enque, hcap, hz] at h
              simp [← h, depth_buffer_agree, hz]
        · simp [brainfuck_step, hd, hp, h7, h8] at h
          simpa [← h] using hinv

theorem brainfuck_main_inv (fuel : Nat) :
    ∀ (src : List Char) (ctx ctx' : brainfuck_context),
      brainfuck_main fuel ctx src = some (true, ctx') →
      depth_buffer_agree ctx → depth_buffer_agree ctx' := by
  intro src
  induction src with
  | nil =>
    intro ctx ctx' h hinv
    simp [brainfuck_main] at h
    rwa [← h]
  | cons c rest ih =>
    intro ctx ctx' h hinv
    by_cases hc : c = '0'
    · simp [brainfuck_main, hc] at h
      rwa [← h]
    · simp only [brainfuck_main, if_neg hc] at h
      cases hs : brainfuck_step fuel ctx c with
      | none => rw [hs] at h; simp at h
      | some p =>
        obtain ⟨b, ctx1⟩ := p
        rw [hs] at h
        cases b
        · simp at h
        · exact ih ctx1 ctx' h (brainfuck_step_inv fuel ctx c ctx1 hs hinv)

theorem feed_chunks_inv (fuel : Nat) :
    ∀ (chunks : List (List Char)) (ctx ctx' : brainfuck_context),
      feed_chunks fuel ctx chunks = some (true, ctx') →
      depth_buffer_agree ctx → depth_buffer_agree ctx' := by
  intro chunks
  induction chunks with
  | nil =>
    intro ctx ctx' h hinv
    simp [feed_chunks] at h
    rwa [← h]
  | cons chunk rest ih =>
    intro ctx ctx' h hinv
    simp only [feed_chunks] at h
    cases hm : brainfuck_main fuel ctx chunk with
    | none => rw [hm] at h; simp at h
    | some p =>
      obtain ⟨b, ctx1⟩ := p
      rw [hm] at h
      cases b
      · simp at h
      · exact ih ctx1 ctx' h (brainfuck_main_inv fuel chunk ctx ctx1 hm hinv)

theorem brainfuck_main_append (fuel : Nat) :
    ∀ (a b : List Char) (ctx : brainfuck_context), '0' ∉ a →
      brainfuck_main fuel ctx (a ++ b) =
        match brainfuck_main fuel ctx a with
        | none => none
        | some (false, ctx1) => some (false, ctx1)
        | some (true, ctx1) => brainfuck_main fuel ctx1 b := by
  intro a
  induction a with
  | nil =>
    intro b ctx h0
    simp [brainfuck_main]
  | cons c rest ih =>
    intro b ctx h0
    have hc : ¬(c = '0') := by
      rintro rfl
      exact h0 (List.mem_cons_self _ _)
    have h0r : '0' ∉ rest := fun hm => h0 (List.mem_cons_of_mem c hm)
    rw [List.cons_append]
    simp only [brainfuck_main, if_neg hc]
    cases hs : brainfuck_step fuel ctx c with
    | none => rfl
    | some p =>
      obtain ⟨b1, ctx1⟩ := p
      cases b1
      · rfl
      · exact ih b ctx1 h0r

/-- Claim C2: chunk boundaries are unobservable.  Feeding any sequence of
chunks of instruction characters one by one (the way `run_file` drives
`brainfuck_main`) produces exactly the same result — final tape, cursor,
output, errors and success flag — as feeding their concatenation as one
chunk, because `unmatched_depth` and `loop_buffer` persist in the context
across calls.  In particular a `[` fed in one chunk and its matching `]`
fed in a later chunk behave as if fed together. -/
theorem feed_chunk_boundary_independence (fuel : Nat) :
    ∀ (chunks : List (List Char)),
      (∀ l ∈ chunks, ∀ c ∈ l, brainfuck_is_instruction c = true) →
      ∀ ctx : brainfuck_context,
        feed_chunks fuel ctx chunks = brainfuck_main fuel ctx chunks.flatten := by
  intro chunks
  induction chunks with
  | nil =>
    intro h ctx
    simp [feed_chunks, brainfuck_main]
  | cons chunk rest ih =>
    intro h ctx
    have h0 : '0' ∉ chunk := by
      intro hm
      have := h chunk (List.mem_cons_self chunk rest) '0' hm
      simp [brainfuck_is_instruction, brainfuck_is_plain_token] at this
    rw [List.flatten_cons, brainfuck_main_append fuel chunk rest.flatten ctx h0]
    simp only [feed_chunks]
    cases hm : brainfuck_main fuel ctx chunk with
    | none => rfl
    | some p =>
      obtain ⟨b, ctx1⟩ := p
      cases b
      · rfl
      · exact ih (fun l hl c hc => h l (List.mem_cons_of_mem chunk hl) c hc) ctx1

/-- Witness for C2: the loop `+[-].` split into five one-character chunks
equals the same program fed as a single chunk. -/
theorem feed_chunk_boundary_independence_inst :
    feed_chunks 50 init0 [['+'], ['['], ['-'], [']'], ['.']] =
      brainfuck_main 50 init0
        (([['+'], ['['], ['-'], [']'], ['.']] : List (List Char)).flatten) :=
  feed_chunk_boundary_independence 50 [['+'], ['['], ['-'], [']'], ['.']]
    (by decide) init0

/-- Claim C5: a `]` reached while the depth tracker is in the Direct state
(depth 0) makes the chunk fail with the UnmatchedLoopEnd report, processing
of the chunk's remaining characters is abandoned, and the resulting context
differs from the pre-error context only by the stderr report: the tape
(cells and cursor) visible before the error is untouched. -/
theorem unmatched_loop_end_aborts_chunk (fuel : Nat) (pre rest : List Char)
    (ctx ctx' : brainfuck_context) (h0 : '0' ∉ pre)
    (h1 : brainfuck_main fuel ctx pre = some (true, ctx'))
    (h2 : ctx'.state.unmatched_depth = 0) :
    brainfuck_main fuel ctx (pre ++ ']' :: rest) =
      some (false, print_error_unmatched_loop_end ctx') ∧
    (print_error_unmatched_loop_end ctx').state = ctx'.state := by
  refine ⟨?_, rfl⟩
  rw [brainfuck_main_append fuel pre (']' :: rest) ctx h0, h1]
  simp [brainfuck_main, brainfuck_step, h2]

/-- Witness for C5: feeding the chunk `+]-` executes the `+`, then fails at
the `]` without processing the `-`. -/
theorem unmatched_loop_end_aborts_chunk_inst :
    brainfuck_main 1 init0 (['+'] ++ ']' :: ['-']) =
      some (false, print_error_unmatched_loop_end (brainfuck_execute_plus init0)) :=
  (unmatched_loop_end_aborts_chunk 1 ['+'] ['-'] init0
    (brainfuck_execute_plus init0) (by decide) rfl rfl).1

/-- Claim C6: declaring end-of-stream (the final check of `run_file`) fails
if and only if the nesting depth is nonzero at that point, and the failure
is reported as UnmatchedLoopStart.  The C check tests `loop_size > 0`; the
`depth_buffer_agree` invariant, which holds after any successful sequence
of feeds from a fresh context, makes that equivalent to `depth ≠ 0`.  The
two literal scenarios: `+++++.` then end-of-stream succeeds, `++[` then
end-of-stream fails with UnmatchedLoopStart. -/
theorem end_of_stream_unmatched_loop_start_iff :
    (∀ (fuel : Nat) (inp : Nat → Nat) (chunks : List (List Char))
       (ctx' : brainfuck_context),
       feed_chunks fuel (brainfuck_context_new inp) chunks = some (true, ctx') →
       (((end_of_stream ctx').1 = false) ↔ ctx'.state.unmatched_depth ≠ 0) ∧
       ((end_of_stream ctx').1 = false →
         (end_of_stream ctx').2.errors =
           ctx'.errors ++ [interpreter_error.UnmatchedLoopStart])) ∧
    (feed_chunks 1 init0 [['+', '+', '+', '+', '+', '.']]).map
        (fun r => (r.1, (end_of_stream r.2).1)) = some (true, true) ∧
    (feed_chunks 1 init0 [['+', '+', '[']]).map
        (fun r => (r.1, (end_of_stream r.2).1, (end_of_stream r.2).2.errors)) =
      some (true, false, [interpreter_error.UnmatchedLoopStart]) := by
  refine ⟨?_, by decide, by decide⟩
  intro fuel inp chunks ctx' h
  have hinv : depth_buffer_agree ctx' :=
    feed_chunks_inv fuel chunks (brainfuck_context_new inp) ctx' h
      (by simp [depth_buffer_agree, brainfuck_context_new, brainfuck_state_new])
  constructor
  · by_cases hlen : ctx'.state.loop_buffer.length > 0
    · have hne : ctx'.state.loop_buffer ≠ [] := by
        intro he
        rw [he] at hlen
        simp at hlen
      have hd : ctx'.state.unmatched_depth ≠ 0 := fun h0 => hne (hinv.mp h0)
      simp [end_of_stream, hlen, hd]
    · have hzero : ctx'.state.loop_buffer.length = 0 := by omega
      have hd : ctx'.state.unmatched_depth = 0 :=
        hinv.mpr (List.length_eq_zero.mp hzero)
      simp [end_of_stream, hlen, hd]
  · intro hf
    have hlen : ctx'.state.loop_buffer.length > 0 := by
      by_contra hn
      simp [end_of_stream, hn] at hf
    simp [end_of_stream, hlen, print_error_unmatched_loop_start]

/-- Witness for C6: applying the end-of-stream law to the empty sequence of
chunks over a fresh context. -/
theorem end_of_stream_unmatched_loop_start_iff_inst :
    ((end_of_stream init0).1 = false) ↔ init0.state.unmatched_depth ≠ 0 :=
  (end_of_stream_unmatched_loop_start_iff.1 1 (fun _ => 0) [] init0 rfl).1

/-- Claim C4: if the cell under the cursor is zero when the buffered-loop
interpreter is invoked, the loop body is not entered: the call returns at
once — through the early return that precedes the allocation of the jump
stack — and the only change is the cleared loop buffer; tape, cursor,
input consumption and output are untouched, so zero instruction dispatches
happen inside the body whatever it contains.  In particular feeding
`[.....]` to a fresh context (cell 0) never calls the output collaborator. -/
theorem loop_execute_zero_cell_skips (fuel : Nat) (ctx : brainfuck_context)
    (h : brainfuck_current_cell ctx = 0) :
    brainfuck_loop_execute fuel ctx =
      some { ctx with state := { ctx.state with loop_buffer := [] } } ∧
    (brainfuck_main 1 init0 ['[', '.', '.', '.', '.', '.', ']']).map
        (fun r => (r.1, r.2.output)) = some (true, []) := by
  refine ⟨?_, by decide⟩
  unfold brainfuck_loop_execute
  split
  · rename_i hlen
    have hempty : ctx.state.loop_buffer = [] := List.length_eq_zero.mp hlen
    obtain ⟨⟨m, p, lb, d⟩, ihandler, ip, out, err⟩ := ctx
    simp at hempty
    subst hempty
    rfl
  · simp [h]

/-- Witness for C4: the skip law applied to a fresh context. -/
theorem loop_execute_zero_cell_skips_inst :
    brainfuck_loop_execute 3 init0 =
      some { init0 with state := { init0.state with loop_buffer := [] } } :=
  (loop_execute_zero_cell_skips 3 init0 rfl).1

set_option maxRecDepth 100000 in
/-- Claim C3: the program `++++++++[>++++++++<-]>.` run on a fresh
zero-initialized context emits exactly one byte, of value 64. -/
theorem hello64_program_output :
    (brainfuck_main 200 init0
        "++++++++[>++++++++<-]>.".toList).map (fun r => (r.1, r.2.output)) =
      some (true, [64]) := by decide

theorem brainfuck_execute_plus_cell (ctx : brainfuck_context) :
    brainfuck_current_cell (brainfuck_execute_plus ctx) =
      (brainfuck_current_cell ctx + 1) % 256 := by
  simp [brainfuck_current_cell, brainfuck_execute_plus, mem_update]

theorem brainfuck_execute_minus_cell (ctx : brainfuck_context) :
    brainfuck_current_cell (brainfuck_execute_minus ctx) =
      (brainfuck_current_cell ctx + 255) % 256 := by
  simp [brainfuck_current_cell, brainfuck_execute_minus, mem_update]

theorem brainfuck_execute_plus_depth (ctx : brainfuck_context) :
    (brainfuck_execute_plus ctx).state.unmatched_depth =
      ctx.state.unmatched_depth := rfl

theorem brainfuck_main_replicate_plus (fuel : Nat) :
    ∀ (n : Nat) (ctx : brainfuck_context) (rest : List Char),
      ctx.state.unmatched_depth = 0 →
      brainfuck_main fuel ctx (List.replicate n '+' ++ rest) =
        brainfuck_main fuel (brainfuck_execute_plus^[n] ctx) rest := by
  intro n
  induction n with
  | zero =>
    intro ctx rest hd
    simp
  | succ m ih =>
    intro ctx rest hd
    rw [List.replicate_succ, List.cons_append]
    have hs : brainfuck_step fuel ctx '+' =
        some (true, brainfuck_execute_plus ctx) := by
      simp [brainfuck_step, hd]
    simp only [brainfuck_main, hs]
    rw [Function.iterate_succ_apply]
    exact ih (brainfuck_execute_plus ctx) rest
      (by rw [brainfuck_execute_plus_depth]; exact hd)

theorem brainfuck_plus_iterate_cell (n : Nat) (ctx : brainfuck_context)
    (h : brainfuck_current_cell ctx < 256) :
    brainfuck_current_cell (brainfuck_execute_plus^[n] ctx) =
      (brainfuck_current_cell ctx + n) % 256 := by
  induction n generalizing ctx with
  | zero => simpa using (Nat.mod_eq_of_lt h).symm
  | succ m ih =>
    rw [Function.iterate_succ_apply]
    rw [ih (brainfuck_execute_plus ctx)
      (by rw [brainfuck_execute_plus_cell]; exact Nat.mod_lt _ (by norm_num))]
    rw [brainfuck_execute_plus_cell]
    omega

theorem brainfuck_plus_iterate_output (n : Nat) (ctx : brainfuck_context) :
    (brainfuck_execute_plus^[n] ctx).output = ctx.output := by
  induction n generalizing ctx with
  | zero => rfl
  | succ m ih =>
    rw [Function.iterate_succ_apply, ih]
    rfl

theorem brainfuck_plus_iterate_depth (n : Nat) (ctx : brainfuck_context) :
    (brainfuck_execute_plus^[n] ctx).state.unmatched_depth =
      ctx.state.unmatched_depth := by
  induction n generalizing ctx with
  | zero => rfl
  | succ m ih =>
    rw [Function.iterate_succ_apply, ih]
    rfl

/-- Claim C9: cell arithmetic is modulo 256 in both directions: for every
n, feeding n `+` instructions and then `.` to a fresh context emits the
byte n mod 256; incrementing a cell holding 255 yields 0; decrementing a
cell holding 0 yields 255. -/
theorem cell_arithmetic_mod256 :
    (∀ n : Nat,
      (brainfuck_main 1 init0 (List.replicate n '+' ++ ['.'])).map
          (fun r => (r.1, r.2.output)) = some (true, [n % 256])) ∧
    (∀ ctx : brainfuck_context, brainfuck_current_cell ctx = 255 →
      brainfuck_current_cell (brainfuck_execute_plus ctx) = 0) ∧
    (∀ ctx : brainfuck_context, brainfuck_current_cell ctx = 0 →
      brainfuck_current_cell (brainfuck_execute_minus ctx) = 255) := by
  refine ⟨?_, ?_, ?_⟩
  · intro n
    rw [brainfuck_main_replicate_plus 1 n init0 ['.'] rfl]
    have hd : (brainfuck_execute_plus^[n] init0).state.unmatched_depth = 0 := by
      rw [brainfuck_plus_iterate_depth]
      rfl
    have hs : brainfuck_step 1 (brainfuck_execute_plus^[n] init0) '.' =
        some (true, brainfuck_execute_output (brainfuck_execute_plus^[n] init0)) := by
      simp [brainfuck_step, hd]
    have hcell := brainfuck_plus_iterate_cell n init0 (by decide)
    rw [show brainfuck_main 1 (brainfuck_execute_plus^[n] init0) ['.'] =
        some (true, brainfuck_execute_output (brainfuck_execute_plus^[n] init0))
      from by simp [brainfuck_main, hs]]
    simp [brainfuck_execute_output, brainfuck_plus_iterate_output, hcell,
      show brainfuck_current_cell init0 = 0 from rfl,
      show init0.output = [] from rfl]
  · intro ctx h
    rw [brainfuck_execute_plus_cell, h]
  · intro ctx h
    rw [brainfuck_execute_minus_cell, h]

/-- Witness for C9: wraparound at the boundary values 255 and 0. -/
theorem cell_arithmetic_mod256_inst :
    brainfuck_current_cell (brainfuck_execute_plus ctx255) = 0 ∧
    brainfuck_current_cell (brainfuck_execute_minus init0) = 255 :=
  ⟨cell_arithmetic_mod256.2.1 ctx255 rfl, cell_arithmetic_mod256.2.2 init0 rfl⟩

/-- Claim C1, evaluated at the failing input: the chunk scan of
`brainfuck_main` stops at the literal digit `0` (its loop condition is
`src[i] != '0'`, not a test against the string terminator), so in the
chunk `0+` the `+` is never executed — the call reports success with the
cell still 0 and nothing on stderr — while the chunk `+` alone leaves the
cell at 1.  Under the claim (and spec sections 4.2 and 9), `0` is a no-op
comment and both chunks would leave the cell at 1. -/
theorem brainfuck_main_stops_at_digit_zero :
    (brainfuck_main 1 init0 ['0', '+']).map
        (fun r => (r.1, brainfuck_current_cell r.2, r.2.output, r.2.errors)) =
      some (true, 0, [], []) ∧
    (brainfuck_main 1 init0 ['+']).map
        (fun r => (r.1, brainfuck_current_cell r.2)) = some (true, 1) := by
  exact ⟨by decide, by decide⟩

/-- Counterexample to C7: with the loop buffer at full capacity (buffering
state, depth 1), feeding the chunk `+` reports the capacity error and
drops the character, yet `brainfuck_main` returns success — the feed does
not return failure as the claim states, because the enqueue's result is
ignored at ibf.c line 359 (and likewise at lines 342 and 365). -/
theorem loop_buffer_capacity_silent_success :
    (brainfuck_main 1 ctx_full_buffer ['+']).map
        (fun r => (r.1, r.2.state.loop_buffer.length, r.2.errors)) =
      some (true, BRAINFUCK_LOOP_BUFFER_SIZE,
        [interpreter_error.LoopBufferCapacityExceeded]) := by
  simp [brainfuck_main, brainfuck_step, brainfuck_is_plain_token,
    brainfuck_loop_enque, print_error_max_loop_size, ctx_full_buffer,
    init0, brainfuck_context_new, brainfuck_state_new]

/-- Claim C7 as amended: appending a character while the loop buffer is at
its maximum capacity reports LoopBufferCapacityExceeded and drops the
character with no out-of-bounds write (the buffer is left unchanged), but
the feed operation returns failure only when the failed append is of `]`;
for the other buffered characters the feed continues and reports success,
the character having been silently dropped with only the stderr report. -/
theorem loop_buffer_capacity_behavior (fuel : Nat) (ctx : brainfuck_context)
    (c : Char)
    (hfull : ctx.state.loop_buffer.length = BRAINFUCK_LOOP_BUFFER_SIZE)
    (hdep : ctx.state.unmatched_depth ≠ 0) :
    brainfuck_loop_enque ctx c = (false, print_error_max_loop_size ctx) ∧
    (brainfuck_loop_enque ctx c).2.state.loop_buffer = ctx.state.loop_buffer ∧
    brainfuck_main fuel ctx ['+'] =
      some (true, print_error_max_loop_size ctx) ∧
    brainfuck_main fuel ctx [']'] =
      some (false, print_error_max_loop_size
        { ctx with state := { ctx.state with
            unmatched_depth := ctx.state.unmatched_depth - 1 } }) := by
  have he : brainfuck_loop_enque ctx c =
      (false, print_error_max_loop_size ctx) := by
    simp [brainfuck_loop_enque, hfull]
  refine ⟨he, by rw [he]; rfl, ?_, ?_⟩
  · simp [brainfuck_main, brainfuck_step, hdep, brainfuck_is_plain_token,
      brainfuck_loop_enque, hfull]
  · simp [brainfuck_main, brainfuck_step, hdep, brainfuck_is_plain_token,
      brainfuck_loop_enque, hfull]

/-- Witness for C7's amended law at the concrete full-capacity context. -/
theorem loop_buffer_capacity_behavior_inst :
    brainfuck_main 1 ctx_full_buffer [']'] =
      some (false, print_error_max_loop_size
        { ctx_full_buffer with state := { ctx_full_buffer.state with
            unmatched_depth := ctx_full_buffer.state.unmatched_depth - 1 } }) :=
  (loop_buffer_capacity_behavior 1 ctx_full_buffer '+'
    (by simp [ctx_full_buffer]) (by simp [ctx_full_buffer])).2.2.2

/-- Counterexample to C8: feeding the chunk `[a` to a fresh context leaves
the session buffering (depth 1) with loop buffer `[` — the comment
character `a`, fed while depth > 0, was discarded rather than appended
(the buffering switch of ibf.c lines 352-379 does not enqueue in its
default case), so the buffer does not hold the complete fed loop text. -/
theorem buffering_drops_comment_chars :
    (brainfuck_main 1 init0 ['[', 'a']).map
        (fun r => (r.1, r.2.state.unmatched_depth, r.2.state.loop_buffer)) =
      some (true, 1, ['[']) := by decide

/-- Claim C8 as amended: while depth > 0 (Buffering state, capacity not
reached), each fed instruction character is appended to the loop buffer
instead of being executed — `[` and `]` also adjusting the depth — while a
character that is not one of the eight instruction tokens is discarded:
neither executed nor appended.  When depth returns to 0 the buffer hence
holds exactly the instruction characters of the fed loop text. -/
theorem buffering_append_characterization (fuel : Nat)
    (ctx : brainfuck_context) (c : Char)
    (hdep : ctx.state.unmatched_depth ≠ 0)
    (hcap : ctx.state.loop_buffer.length < BRAINFUCK_LOOP_BUFFER_SIZE) :
    (brainfuck_is_plain_token c = true →
      brainfuck_main fuel ctx [c] =
        some (true, { ctx with state := { ctx.state with
          loop_buffer := ctx.state.loop_buffer ++ [c] } })) ∧
    (ctx.state.unmatched_depth < BRAINFUCK_MAX_LOOP_DEPTH →
      brainfuck_main fuel ctx ['['] =
        some (true, { ctx with state := { ctx.state with
          loop_buffer := ctx.state.loop_buffer ++ ['[']
          unmatched_depth := ctx.state.unmatched_depth + 1 } })) ∧
    (1 < ctx.state.unmatched_depth →
      brainfuck_main fuel ctx [']'] =
        some (true, { ctx with state := { ctx.state with
          loop_buffer := ctx.state.loop_buffer ++ [']']
          unmatched_depth := ctx.state.unmatched_depth - 1 } })) ∧
    (brainfuck_is_instruction c = false →
      brainfuck_main fuel ctx [c] = some (true, ctx)) := by
  have hne : ¬(ctx.state.loop_buffer.length = BRAINFUCK_LOOP_BUFFER_SIZE) :=
    Nat.ne_of_lt hcap
  refine ⟨?_, ?_, ?_, ?_⟩
  · intro hp
    have hc0 : ¬(c = '0') := by
      rintro rfl
      simp [brainfuck_is_plain_token] at hp
    simp [brainfuck_main, hc0, brainfuck_step, hdep, hp,
      brainfuck_loop_enque, hne]
  · intro hmax
    have hmaxne : ¬(ctx.state.unmatched_depth = BRAINFUCK_MAX_LOOP_DEPTH) :=
      Nat.ne_of_lt hmax
    simp [brainfuck_main, brainfuck_step, hdep, brainfuck_is_plain_token,
      brainfuck_loop_increase_unmatched, hmaxne, brainfuck_loop_enque, hne]
  · intro hgt
    have hz : ¬(ctx.state.unmatched_depth - 1 = 0) := by omega
    simp [brainfuck_main, brainfuck_step, hdep, brainfuck_is_plain_token,
      brainfuck_loop_enque, hne, hz]
  · intro hni
    simp [brainfuck_is_instruction, Bool.or_eq_false_iff] at hni
    by_cases hc0 : c = '0'
    · simp [brainfuck_main, hc0]
    · simp [brainfuck_main, hc0, brainfuck_step, hdep, hni.1.1, hni.1.2, hni.2]

/-- Witness for C8's amended law: in a buffering context holding `[`, the
instruction `-` is appended, not executed. -/
theorem buffering_append_characterization_inst :
    brainfuck_main 1 ctx_buffering1 ['-'] =
      some (true, { ctx_buffering1 with state := { ctx_buffering1.state with
        loop_buffer := ctx_buffering1.state.loop_buffer ++ ['-'] } }) :=
  (buffering_append_characterization 1 ctx_buffering1 '-'
    (by decide) (by decide)).1 rfl

/-- Claim C10: `run_command` scans the whole command for bracket balance
before constructing any interpreter state: when the net bracket count is
nonzero it reports UnmatchedLoopEnd (net negative) or UnmatchedLoopStart
(net positive) and returns failure with no context ever built — hence no
instruction executed, no tape mutation and no collaborator call — whereas
per-chunk feeding executes a chunk's leading instructions before finding a
stray `]`, as the `+]` contrast conjuncts show.  The length bound keeps
the modelled run inside the defined-behaviour range of the C `int32_t`
prescan counter. -/
theorem run_command_prescan_gate :
    (∀ (fuel : Nat) (inp : Nat → Nat) (command : List Char),
      command.length < 2 ^ 31 →
      run_command_prescan command 0 ≠ 0 →
      run_command fuel inp command =
        some (false,
          [if run_command_prescan command 0 < 0 then
            interpreter_error.UnmatchedLoopEnd
          else interpreter_error.UnmatchedLoopStart], none)) ∧
    (brainfuck_main 1 init0 ['+', ']']).map
        (fun r => (r.1, brainfuck_current_cell r.2, r.2.errors)) =
      some (false, 1, [interpreter_error.UnmatchedLoopEnd]) ∧
    (run_command 1 (fun _ => 0) ['+', ']']).map
        (fun r => (r.1, r.2.1, r.2.2.isNone)) =
      some (false, [interpreter_error.UnmatchedLoopEnd], true) := by
  refine ⟨?_, by decide, by decide⟩
  intro fuel inp command hlen hne
  unfold run_command
  rcases lt_trichotomy (run_command_prescan command 0) 0 with hlt | heq | hgt
  · simp [hlt]
  · exact absurd heq hne
  · have hnlt : ¬(run_command_prescan command 0 < 0) := by omega
    simp [hgt, hnlt]

/-- Witness for C10's prescan gate at the unbalanced command `]]`. -/
theorem run_command_prescan_gate_inst :
    run_command 1 (fun _ => 0) [']', ']'] =
      some (false,
        [if run_command_prescan [']', ']'] 0 < 0 then
          interpreter_error.UnmatchedLoopEnd
        else interpreter_error.UnmatchedLoopStart], none) :=
  run_command_prescan_gate.1 1 (fun _ => 0) [']', ']'] (by decide) (by decide)
